import Mathlib

/-!
Verification of the VK video embed-URL service
(`supabase/functions/vk-video-api/index.ts`).

The service is a single request handler: it parses a VK video URL with a
sequence of JavaScript regular expressions, calls the VK metadata API and
synthesizes an embed URL.  We embed the handler shallowly:

* the five concrete regular expressions of the source are modelled by a
  small backtracking matcher (`matchToksF`) over token lists; each token
  list (`extRe`, `standardRe`, `zRe`, `accessKeyRe`, `hashRe`) transcribes
  one source regex, with the same greedy/leftmost-first preference order a
  JavaScript engine uses (later choice points vary fastest, quantifiers
  prefer longer matches, alternatives are tried left to right, the match
  starts at the leftmost possible position);
* the handler body becomes a pure function from the request method, the
  parsed JSON body, the environment variable and the outcome of the VK
  API call to an HTTP response plus a flag recording whether the VK API
  call was reached.
-/

namespace VkApi

/-! ### Character classes

`\d`, `[a-f0-9]` under the `i` flag, `[?&]`, and the characters the
JavaScript `.` metacharacter excludes (line terminators). -/

/-- The `\d` class: ASCII digits. -/
def isDigitC (c : Char) : Bool :=
  decide ('0' ≤ c) && decide (c ≤ '9')

/-- The `[a-f0-9]` class under the `i` flag: case-insensitive hex. -/
def isHexCI (c : Char) : Bool :=
  isDigitC c || (decide ('a' ≤ c) && decide (c ≤ 'f')) ||
    (decide ('A' ≤ c) && decide (c ≤ 'F'))

/-- The `[a-f0-9]` class without the `i` flag: lowercase hex only. -/
def isHexLower (c : Char) : Bool :=
  isDigitC c || (decide ('a' ≤ c) && decide (c ≤ 'f'))

/-- ASCII case folding, as the `i` flag applies it to ASCII patterns. -/
def lowerAscii (c : Char) : Char :=
  if decide ('A' ≤ c) && decide (c ≤ 'Z') then Char.ofNat (c.toNat + 32) else c

/-- Characters matched by `.` (any character except line terminators
`\n`, `\r`, U+2028, U+2029). -/
def isDotChar (c : Char) : Bool :=
  !(c == '\n' || c == '\r' || c == Char.ofNat 0x2028 || c == Char.ofNat 0x2029)

/-! ### Regex tokens

Every quantifier in the source's five regexes applies to a single-character
atom, so a regex is a flat list of tokens. -/

/-- One token of a source regex. -/
inductive RTok where
  /-- a literal run, matched case-insensitively (`i` flag) -/
  | lit (cs : List Char)
  /-- alternation `(?:a|b|c)` over literal runs, tried left to right -/
  | altLit (alts : List (List Char))
  /-- a one-character class such as `[?&]` -/
  | oneOf (cs : List Char)
  /-- the `.*` metacharacter: greedy, matches anything except line terminators -/
  | dotStar
  /-- non-capturing `-?\d+` (`signed = true`) or `\d+` (`signed = false`) -/
  | num (signed : Bool)
  /-- capturing `(-?\d+)` or `(\d+)` -/
  | capNum (signed : Bool)
  /-- capturing `([a-f0-9]+)` under the `i` flag -/
  | capHex
deriving Repr

/-- Consume a literal case-insensitively; return the rest of the input. -/
def eatLitCI : List Char → List Char → Option (List Char)
  | [], s => some s
  | _ :: _, [] => none
  | c :: cs, d :: ds =>
    if lowerAscii c = lowerAscii d then eatLitCI cs ds else none

/-- Length of the maximal digit run at the head of the input. -/
def digitRunLen (s : List Char) : Nat := (s.takeWhile isDigitC).length

/-- Length of the maximal case-insensitive-hex run at the head of the input. -/
def hexRunLen (s : List Char) : Nat := (s.takeWhile isHexCI).length

/-- Candidate (consumed, rest) splits for a greedy one-class quantifier:
lengths `n, n-1, …, 1`, longest first, exactly the backtracking order of a
greedy `+`. -/
def capCandidatesFrom (s : List Char) (n : Nat) : List (List Char × List Char) :=
  (List.range n).map (fun i => (s.take (n - i), s.drop (n - i)))

/-- Candidate captures for `-?\d+` (signed) or `\d+`, in JavaScript
backtracking order: with the optional minus first (greedy `?`), digit runs
longest first. -/
def numCandidates (sg : Bool) (s : List Char) : List (List Char × List Char) :=
  (match sg, s with
   | true, '-' :: t =>
     (capCandidatesFrom t (digitRunLen t)).map (fun p => ('-' :: p.1, p.2))
   | _, _ => []) ++ capCandidatesFrom s (digitRunLen s)

/-- Candidate captures for `[a-f0-9]+` under `i`, longest first. -/
def hexCandidates (s : List Char) : List (List Char × List Char) :=
  capCandidatesFrom s (hexRunLen s)

/-- Backtracking matcher: try to match the token list against a prefix of
the input, returning the capture list of the first match in JavaScript
preference order.  The fuel argument only bounds the recursion depth; one
token is consumed per level, so `toks.length + 1` fuel is always enough. -/
def matchToksF : Nat → List RTok → List Char → Option (List (List Char))
  | 0, _, _ => none
  | _ + 1, [], _ => some []
  | fuel + 1, RTok.lit l :: rest, s =>
    match eatLitCI l s with
    | some s2 => matchToksF fuel rest s2
    | none => none
  | fuel + 1, RTok.altLit alts :: rest, s =>
    alts.findSome? (fun l =>
      match eatLitCI l s with
      | some s2 => matchToksF fuel rest s2
      | none => none)
  | fuel + 1, RTok.oneOf cs :: rest, s =>
    match s with
    | [] => none
    | c :: s2 => if cs.contains c then matchToksF fuel rest s2 else none
  | fuel + 1, RTok.dotStar :: rest, s =>
    let m := (s.takeWhile isDotChar).length
    (List.range (m + 1)).findSome? (fun i => matchToksF fuel rest (s.drop (m - i)))
  | fuel + 1, RTok.num sg :: rest, s =>
    (numCandidates sg s).findSome? (fun p => matchToksF fuel rest p.2)
  | fuel + 1, RTok.capNum sg :: rest, s =>
    (numCandidates sg s).findSome? (fun p =>
      match matchToksF fuel rest p.2 with
      | some caps => some (p.1 :: caps)
      | none => none)
  | fuel + 1, RTok.capHex :: rest, s =>
    (hexCandidates s).findSome? (fun p =>
      match matchToksF fuel rest p.2 with
      | some caps => some (p.1 :: caps)
      | none => none)

/-- Semantics of `String.prototype.match` without the `g` flag: try every start
position left to right and return the captures of the first match. -/
def execRegex (toks : List RTok) (s : List Char) : Option (List (List Char)) :=
  (List.range (s.length + 1)).findSome?
    (fun i => matchToksF (toks.length + 1) toks (s.drop i))

/-! ### The five source regexes (index.ts lines 48, 61, 70, 78, 85/53) -/

/-- The regex `/video_ext\.php\?.*oid=(-?\d+).*id=(\d+)/i` (line 48). -/
def extRe : List RTok :=
  [RTok.lit "video_ext.php?".data, RTok.dotStar, RTok.lit "oid=".data,
   RTok.capNum true, RTok.dotStar, RTok.lit "id=".data, RTok.capNum false]

/-- The regex `/(?:vk\.com|vk\.ru|vkvideo\.ru)\/video(-?\d+)_(\d+)/i` (line 61). -/
def standardRe : List RTok :=
  [RTok.altLit ["vk.com".data, "vk.ru".data, "vkvideo.ru".data],
   RTok.lit "/video".data, RTok.capNum true, RTok.lit "_".data, RTok.capNum false]

/-- The regex `/video\?z=video(-?\d+)_(\d+)/i` (line 70). -/
def zRe : List RTok :=
  [RTok.lit "video?z=video".data, RTok.capNum true, RTok.lit "_".data,
   RTok.capNum false]

/-- The regex `/video-?\d+_\d+_([a-f0-9]+)/i` (line 78); the numbers are not captured. -/
def accessKeyRe : List RTok :=
  [RTok.lit "video".data, RTok.num true, RTok.lit "_".data, RTok.num false,
   RTok.lit "_".data, RTok.capHex]

/-- The regex `/[?&]hash=([a-f0-9]+)/i` (lines 53 and 85 use this same regex). -/
def hashRe : List RTok :=
  [RTok.oneOf ['?', '&'], RTok.lit "hash=".data, RTok.capHex]

/-- The call `videoUrl.match(extRe)`, keeping the two captures. -/
def matchExt (u : List Char) : Option (String × String) :=
  match execRegex extRe u with
  | some (o :: v :: _) => some (String.mk o, String.mk v)
  | _ => none

/-- The call `videoUrl.match(standardRe)`, keeping the two captures. -/
def matchStandard (u : List Char) : Option (String × String) :=
  match execRegex standardRe u with
  | some (o :: v :: _) => some (String.mk o, String.mk v)
  | _ => none

/-- The call `videoUrl.match(zRe)`, keeping the two captures. -/
def matchZ (u : List Char) : Option (String × String) :=
  match execRegex zRe u with
  | some (o :: v :: _) => some (String.mk o, String.mk v)
  | _ => none

/-- The call `videoUrl.match(accessKeyRe)`, keeping the single capture. -/
def matchAccessKey (u : List Char) : Option String :=
  match execRegex accessKeyRe u with
  | some (c :: _) => some (String.mk c)
  | _ => none

/-- The call `videoUrl.match(hashRe)`, keeping the single capture. -/
def matchHash (u : List Char) : Option String :=
  match execRegex hashRe u with
  | some (c :: _) => some (String.mk c)
  | _ => none

/-! ### URL resolver (index.ts lines 43–89) -/

/-- JavaScript truthiness of a string-or-null value: `null`/absent and the
empty string are falsy. -/
def strFalsy : Option String → Bool
  | none => true
  | some s => decide (s = "")

/-- The parsing block of the handler (lines 43–89): returns
`(ownerId, videoId, existingAccessKey)` exactly as the sequence of regex
attempts computes them. -/
def resolveVkUrl (videoUrl : String) : Option String × Option String × Option String :=
  let u := videoUrl.data
  -- lines 47–57: video_ext.php format first, plus its hash parameter
  let step1 : Option String × Option String × Option String :=
    match matchExt u with
    | some (o, v) => (some o, some v, matchHash u)
    | none => (none, none, none)
  let ownerId := step1.1
  let videoId := step1.2.1
  let existingAccessKey := step1.2.2
  -- lines 59–66: standard vk.com/video-123_456 format
  let step2 : Option String × Option String :=
    if strFalsy ownerId || strFalsy videoId then
      match matchStandard u with
      | some (o, v) => (some o, some v)
      | none => (ownerId, videoId)
    else (ownerId, videoId)
  let ownerId := step2.1
  let videoId := step2.2
  -- lines 68–75: video?z=video format
  let step3 : Option String × Option String :=
    if strFalsy ownerId || strFalsy videoId then
      match matchZ u with
      | some (o, v) => (some o, some v)
      | none => (ownerId, videoId)
    else (ownerId, videoId)
  let ownerId := step3.1
  let videoId := step3.2
  -- lines 77–81: embedded access key video-123_456_key, overwriting
  let existingAccessKey :=
    match matchAccessKey u with
    | some k => some k
    | none => existingAccessKey
  -- lines 83–89: hash parameter, only if no key was established
  let existingAccessKey :=
    if strFalsy existingAccessKey then matchHash u else existingAccessKey
  (ownerId, videoId, existingAccessKey)

/-! ### Data model of the handler -/

/-- One record of `vkData.response.items` (the fields the handler reads).
A `none` field is an absent JSON field; `some ""` is an empty string,
which JavaScript treats as falsy wherever the handler tests the field. -/
structure VKVideo where
  access_key : Option String := none
  player : Option String := none
  title : Option String := none
  duration : Option Nat := none
deriving Repr, DecidableEq

/-- Outcome of the VK API call, after `vkResponse.json()`:
either `vkData.error` is truthy (line 127), or the item list
`vkData.response?.items || []` (line 158) is used. -/
inductive VKOutcome where
  /-- case `vkData.error` present: its `error_msg` (may be absent/empty, line
  150 then substitutes a default) and `error_code`. -/
  | apiError (errorMsg : Option String) (errorCode : Option Int)
  /-- no `vkData.error`: the item list (empty when `response` or `items`
  is missing). -/
  | items (videos : List VKVideo)
deriving Repr, DecidableEq

/-- The JSON bodies the handler can produce, one constructor per
`JSON.stringify` site in the source. -/
inductive Body where
  /-- the `null` body of the CORS preflight response (line 21) -/
  | preflight
  /-- line 29: `Missing videoUrl parameter` -/
  | missingInput
  /-- line 94: `Invalid VK video URL format` with the original URL -/
  | invalidFormat (originalUrl : String)
  /-- line 106: `VK API not configured` -/
  | notConfigured
  /-- lines 148–153: provider error message, code and hint -/
  | providerRejected (error : String) (errorCode : Option Int) (hint : String)
  /-- line 180: `Video not found or not accessible` -/
  | videoNotFound
  /-- lines 136–143 and 167–174 and 216–226: `success: true` payload.
  The fallback responses carry no title/duration/playerUrl fields; here
  they are `none`, like the explicit `null`s of the vk_api response. -/
  | success (embedUrl ownerId videoId : String) (accessKey : Option String)
      (title : Option String) (duration : Option Nat)
      (playerUrl : Option String) (source : String)
  /-- line 233: `Internal server error` with stringified error -/
  | internalError (details : String)
deriving Repr, DecidableEq

/-- An HTTP response: status, headers, JSON body. -/
structure Response where
  status : Nat
  headers : List (String × String)
  body : Body
deriving Repr, DecidableEq

/-- The `corsHeaders` constant (lines 3–6). -/
def corsHeaders : List (String × String) :=
  [("Access-Control-Allow-Origin", "*"),
   ("Access-Control-Allow-Headers", "authorization, x-client-info, apikey, content-type")]

/-- A JSON response: the given status, `corsHeaders` plus the content
type (`{ ...corsHeaders, 'Content-Type': 'application/json' }`). -/
def jsonResp (status : Nat) (b : Body) : Response :=
  Response.mk status (corsHeaders ++ [("Content-Type", "application/json")]) b

/-- The hint string of the provider-error response (line 152). -/
def vkHint : String :=
  "For \"Anyone with the link\" videos, make sure to include the access_key or hash in the URL"

/-- The embed-URL template shared by the fallback branches (lines 132,
165, 207) and the keyless public-video branch (line 210): with a key,
`...oid=O&id=V&hash=K&hd=2&autoplay=0`; without, `...oid=O&id=V&hd=2&autoplay=0`. -/
def fallbackEmbedUrl (ownerId videoId : String) (key : Option String) : String :=
  "https://vk.com/video_ext.php?oid=" ++ ownerId ++ "&id=" ++ videoId ++
    (match key with
     | some k => "&hash=" ++ k
     | none => "") ++ "&hd=2&autoplay=0"

/-- Semantics of `String.prototype.includes`: substring test. -/
def containsSub (s sub : List Char) : Bool :=
  match s with
  | [] => sub.isEmpty
  | _ :: t => sub.isPrefixOf s || containsSub t sub

/-- The rewrite `embedUrl.replace(/^http:/, 'https:')` (line 197): anchored,
case-sensitive rewrite of the scheme. -/
def upgradeHttp (p : String) : String :=
  match p.data with
  | 'h' :: 't' :: 't' :: 'p' :: ':' :: rest =>
    String.mk ('h' :: 't' :: 't' :: 'p' :: 's' :: ':' :: rest)
  | _ => p

/-- Lines 195–204: adopt the player URL, force HTTPS, then append `hd=2`
and `autoplay=0` when `includes` does not find them. -/
def normalizePlayerUrl (p : String) : String :=
  let e := upgradeHttp p
  let e :=
    if containsSub e.data ("hd=".data) then e
    else e ++ (if containsSub e.data ("?".data) then "&" else "?") ++ "hd=2"
  if containsSub e.data ("autoplay=".data) then e else e ++ "&autoplay=0"

/-- Line 188: `const accessKey = video.access_key || existingAccessKey`
(the record's key when truthy, else the pre-known key). -/
def effectiveKey (recordKey preKnown : Option String) : Option String :=
  if strFalsy recordKey then preKnown else recordKey

/-- The JavaScript `x || null` idiom on a string field. -/
def jsOrNull (s : Option String) : Option String :=
  if strFalsy s then none else s

/-- The JavaScript `x || null` idiom on a number field (`0` is falsy). -/
def jsOrNullNat : Option Nat → Option Nat
  | some d => if d = 0 then none else some d
  | none => none

/-- Lines 185–228: the branch for a successful lookup with at least one
record (`video` is `videos[0]`). -/
def successPhase (ownerId videoId : String) (existingAccessKey : Option String)
    (video : VKVideo) : Response :=
  -- line 188
  let accessKey := effectiveKey video.access_key existingAccessKey
  -- lines 193–211: choose the embed URL
  let embedUrl :=
    if strFalsy video.player = false then
      normalizePlayerUrl (video.player.getD "")
    else if strFalsy accessKey = false then
      fallbackEmbedUrl ownerId videoId accessKey
    else
      fallbackEmbedUrl ownerId videoId none
  -- lines 215–228: the vk_api response (x || null on the optional fields)
  jsonResp 200 (Body.success embedUrl ownerId videoId
    (jsOrNull accessKey)
    (jsOrNull video.title)
    (jsOrNullNat video.duration)
    (jsOrNull video.player)
    "vk_api")

/-- Lines 122–228: everything after the VK API call.  The `vkCall`
argument is the result of `fetch` + `json()`: `Except.error` when that
throws (caught by the outer handler, line 230), otherwise the decoded
outcome. -/
def providerPhase (ownerId videoId : String) (existingAccessKey : Option String)
    (vkCall : Except String VKOutcome) : Response :=
  match vkCall with
  | Except.error e => jsonResp 500 (Body.internalError e)
  | Except.ok (VKOutcome.apiError msg code) =>
    -- lines 127–156
    if strFalsy existingAccessKey then
      jsonResp 400 (Body.providerRejected
        (if strFalsy msg then "VK API error" else msg.getD "") code vkHint)
    else
      jsonResp 200 (Body.success
        (fallbackEmbedUrl ownerId videoId existingAccessKey)
        ownerId videoId existingAccessKey none none none "fallback")
  | Except.ok (VKOutcome.items videos) =>
    match videos with
    | [] =>
      -- lines 160–183
      if strFalsy existingAccessKey then jsonResp 404 Body.videoNotFound
      else
        jsonResp 200 (Body.success
          (fallbackEmbedUrl ownerId videoId existingAccessKey)
          ownerId videoId existingAccessKey none none none "fallback")
    | video :: _ => successPhase ownerId videoId existingAccessKey video

/-- Lines 34–228: everything after `videoUrl` was found non-falsy.
Returns the response and whether the VK API call was reached. -/
def afterParse (videoUrl : String) (envKey : Option String)
    (vkCall : Except String VKOutcome) : Response × Bool :=
  match resolveVkUrl videoUrl with
  | (ownerId, videoId, existingAccessKey) =>
    -- lines 91–97
    if strFalsy ownerId || strFalsy videoId then
      (jsonResp 400 (Body.invalidFormat videoUrl), false)
    -- lines 101–109: Deno.env.get('VK_SERVICE_ACCESS_KEY') check
    else if strFalsy envKey then
      (jsonResp 500 Body.notConfigured, false)
    else
      (providerPhase (ownerId.getD "") (videoId.getD "") existingAccessKey vkCall, true)

/-- The whole `serve` handler (lines 18–237).  `body` is the result of
`req.json()` projected to its `videoUrl` field: `Except.error` when the
JSON parse throws, `Except.ok none` when the field is absent. -/
def handleRequest (method : String) (body : Except String (Option String))
    (envKey : Option String) (vkCall : Except String VKOutcome) :
    Response × Bool :=
  -- lines 20–22: CORS preflight, plain corsHeaders, default status
  if method = "OPTIONS" then
    (Response.mk 200 corsHeaders Body.preflight, false)
  else
    match body with
    | Except.error e => (jsonResp 500 (Body.internalError e), false)
    | Except.ok videoUrl =>
      -- lines 27–32: falsy videoUrl
      if strFalsy videoUrl then (jsonResp 400 Body.missingInput, false)
      else afterParse (videoUrl.getD "") envKey vkCall

/-! ### Shape of regex captures

Every capture the matcher can produce is non-empty, and a `capHex`
capture consists of case-insensitive hex characters.  These facts feed
the resolver invariants. -/

theorem exists_of_findSome {α β : Type} {f : α → Option β} {b : β} :
    ∀ {l : List α}, l.findSome? f = some b → ∃ a, a ∈ l ∧ f a = some b := by
  intro l
  induction l with
  | nil => intro h; simp [List.findSome?_nil] at h
  | cons x xs ih =>
    intro h
    rw [List.findSome?_cons] at h
    cases hx : f x with
    | some y =>
      rw [hx] at h
      exact ⟨x, List.mem_cons_self x xs, by rw [hx]; exact h⟩
    | none =>
      rw [hx] at h
      obtain ⟨a, ha, hb⟩ := ih h
      exact ⟨a, List.mem_cons_of_mem x ha, hb⟩

theorem take_all_of_le_takeWhile {p : Char → Bool} :
    ∀ (s : List Char) (m : Nat), m ≤ (s.takeWhile p).length →
      (s.take m).all p = true ∧ (s.take m).length = m := by
  intro s
  induction s with
  | nil =>
    intro m hm
    simp only [List.takeWhile_nil, List.length_nil, Nat.le_zero] at hm
    subst hm
    simp
  | cons c t ih =>
    intro m hm
    cases hpc : p c with
    | true =>
      rw [List.takeWhile_cons, hpc] at hm
      simp only [List.length_cons] at hm
      cases m with
      | zero => simp
      | succ m' =>
        have hm' : m' ≤ (t.takeWhile p).length := Nat.le_of_succ_le_succ hm
        obtain ⟨h1, h2⟩ := ih m' hm'
        refine ⟨?_, ?_⟩
        · simp [List.take_succ_cons, List.all_cons, hpc, h1]
        · simp [List.take_succ_cons, h2]
    | false =>
      rw [List.takeWhile_cons, hpc] at hm
      simp at hm
      subst hm
      simp

theorem mem_capCandidatesFrom {s : List Char} {n : Nat} {c r : List Char}
    (h : (c, r) ∈ capCandidatesFrom s n) :
    ∃ m, 1 ≤ m ∧ m ≤ n ∧ c = s.take m ∧ r = s.drop m := by
  unfold capCandidatesFrom at h
  obtain ⟨i, hi, heq⟩ := List.mem_map.mp h
  rw [List.mem_range] at hi
  refine ⟨n - i, ?_, Nat.sub_le n i, ?_, ?_⟩
  · omega
  · exact (congrArg Prod.fst heq).symm
  · exact (congrArg Prod.snd heq).symm

theorem ne_nil_of_mem_numCandidates {sg : Bool} {s : List Char}
    {c r : List Char} (h : (c, r) ∈ numCandidates sg s) : c ≠ [] := by
  unfold numCandidates at h
  rw [List.mem_append] at h
  cases h with
  | inl h =>
    split at h
    · obtain ⟨p, _, hp⟩ := List.mem_map.mp h
      have hc : ('-' :: p.1 : List Char) = c := congrArg Prod.fst hp
      rw [← hc]
      simp
    · simp at h
  | inr h =>
    obtain ⟨m, hm1, hmn, hc, _⟩ := mem_capCandidatesFrom h
    have hlen := (take_all_of_le_takeWhile s m (Nat.le_trans hmn (Nat.le_refl _))).2
    intro hnil
    rw [hc] at hnil
    have : (s.take m).length = 0 := by rw [hnil]; rfl
    omega

theorem hex_of_mem_hexCandidates {s : List Char} {c r : List Char}
    (h : (c, r) ∈ hexCandidates s) : c ≠ [] ∧ c.all isHexCI = true := by
  unfold hexCandidates at h
  obtain ⟨m, hm1, hmn, hc, _⟩ := mem_capCandidatesFrom h
  obtain ⟨hall, hlen⟩ := take_all_of_le_takeWhile s m hmn
  constructor
  · intro hnil
    rw [hc] at hnil
    have : (s.take m).length = 0 := by rw [hnil]; rfl
    omega
  · rw [hc]; exact hall

/-- The shape each capture of a successful match satisfies: non-empty,
and hex for `capHex` captures. -/
def capsOK : List RTok → List (List Char) → Prop
  | [], caps => caps = []
  | RTok.capNum _ :: rest, caps =>
    ∃ c cs, caps = c :: cs ∧ c ≠ [] ∧ capsOK rest cs
  | RTok.capHex :: rest, caps =>
    ∃ c cs, caps = c :: cs ∧ c ≠ [] ∧ c.all isHexCI = true ∧ capsOK rest cs
  | _ :: rest, caps => capsOK rest caps

theorem capsOK_of_matchToksF :
    ∀ (fuel : Nat) (toks : List RTok) (s : List Char) (caps : List (List Char)),
      matchToksF fuel toks s = some caps → capsOK toks caps := by
  intro fuel
  induction fuel with
  | zero => intro toks s caps h; simp [matchToksF] at h
  | succ f ih =>
    intro toks s caps h
    cases toks with
    | nil =>
      simp only [matchToksF] at h
      injection h with h
      simp [capsOK, ← h]
    | cons t rest =>
      cases t with
      | lit l =>
        simp only [matchToksF] at h
        cases he : eatLitCI l s with
        | none => rw [he] at h; exact absurd h (by simp)
        | some s2 => rw [he] at h; exact ih rest s2 caps h
      | altLit alts =>
        simp only [matchToksF] at h
        obtain ⟨l, _, hl⟩ := exists_of_findSome h
        cases he : eatLitCI l s with
        | none => rw [he] at hl; exact absurd hl (by simp)
        | some s2 => rw [he] at hl; exact ih rest s2 caps hl
      | oneOf cs =>
        simp only [matchToksF] at h
        split at h
        · exact absurd h (by simp)
        · split at h
          · exact ih rest _ caps h
          · exact absurd h (by simp)
      | dotStar =>
        simp only [matchToksF] at h
        obtain ⟨i, _, hi⟩ := exists_of_findSome h
        exact ih rest _ caps hi
      | num sg =>
        simp only [matchToksF] at h
        obtain ⟨p, _, hp⟩ := exists_of_findSome h
        exact ih rest p.2 caps hp
      | capNum sg =>
        simp only [matchToksF] at h
        obtain ⟨p, hpmem, hp⟩ := exists_of_findSome h
        cases hrec : matchToksF f rest p.2 with
        | none => rw [hrec] at hp; exact absurd hp (by simp)
        | some cs' =>
          rw [hrec] at hp
          injection hp with hp
          refine ⟨p.1, cs', hp.symm, ?_, ih rest p.2 cs' hrec⟩
          exact ne_nil_of_mem_numCandidates (c := p.1) (r := p.2) (by simpa using hpmem)
      | capHex =>
        simp only [matchToksF] at h
        obtain ⟨p, hpmem, hp⟩ := exists_of_findSome h
        cases hrec : matchToksF f rest p.2 with
        | none => rw [hrec] at hp; exact absurd hp (by simp)
        | some cs' =>
          rw [hrec] at hp
          injection hp with hp
          obtain ⟨hne, hhex⟩ :=
            hex_of_mem_hexCandidates (c := p.1) (r := p.2) (by simpa using hpmem)
          exact ⟨p.1, cs', hp.symm, hne, hhex, ih rest p.2 cs' hrec⟩

theorem capsOK_of_execRegex {toks : List RTok} {s : List Char}
    {caps : List (List Char)} (h : execRegex toks s = some caps) :
    capsOK toks caps := by
  unfold execRegex at h
  obtain ⟨i, _, hi⟩ := exists_of_findSome h
  exact capsOK_of_matchToksF _ toks _ caps hi

theorem mk_ne_empty {c : List Char} (h : c ≠ []) : String.mk c ≠ "" := by
  intro he
  apply h
  have h2 : (String.mk c).data = ("" : String).data := congrArg String.data he
  have h3 : (String.mk c).data = c := rfl
  have h4 : ("" : String).data = [] := rfl
  rw [h3, h4] at h2
  exact h2

/-! ### Shapes of the five match wrappers -/

theorem matchExt_shape {u : List Char} {o v : String}
    (h : matchExt u = some (o, v)) : o ≠ "" ∧ v ≠ "" := by
  unfold matchExt at h
  cases he : execRegex extRe u with
  | none => rw [he] at h; exact absurd h (by simp)
  | some caps =>
    rw [he] at h
    have hok := capsOK_of_execRegex he
    simp only [extRe, capsOK] at hok
    obtain ⟨c1, cs1, he1, hne1, c2, cs2, he2, hne2, hnil⟩ := hok
    subst he1
    subst he2
    subst hnil
    simp only [Option.some.injEq, Prod.mk.injEq] at h
    obtain ⟨ho, hv⟩ := h
    subst ho
    subst hv
    exact ⟨mk_ne_empty hne1, mk_ne_empty hne2⟩

theorem matchStandard_shape {u : List Char} {o v : String}
    (h : matchStandard u = some (o, v)) : o ≠ "" ∧ v ≠ "" := by
  unfold matchStandard at h
  cases he : execRegex standardRe u with
  | none => rw [he] at h; exact absurd h (by simp)
  | some caps =>
    rw [he] at h
    have hok := capsOK_of_execRegex he
    simp only [standardRe, capsOK] at hok
    obtain ⟨c1, cs1, he1, hne1, c2, cs2, he2, hne2, hnil⟩ := hok
    subst he1
    subst he2
    subst hnil
    simp only [Option.some.injEq, Prod.mk.injEq] at h
    obtain ⟨ho, hv⟩ := h
    subst ho
    subst hv
    exact ⟨mk_ne_empty hne1, mk_ne_empty hne2⟩

theorem matchZ_shape {u : List Char} {o v : String}
    (h : matchZ u = some (o, v)) : o ≠ "" ∧ v ≠ "" := by
  unfold matchZ at h
  cases he : execRegex zRe u with
  | none => rw [he] at h; exact absurd h (by simp)
  | some caps =>
    rw [he] at h
    have hok := capsOK_of_execRegex he
    simp only [zRe, capsOK] at hok
    obtain ⟨c1, cs1, he1, hne1, c2, cs2, he2, hne2, hnil⟩ := hok
    subst he1
    subst he2
    subst hnil
    simp only [Option.some.injEq, Prod.mk.injEq] at h
    obtain ⟨ho, hv⟩ := h
    subst ho
    subst hv
    exact ⟨mk_ne_empty hne1, mk_ne_empty hne2⟩

theorem matchAccessKey_shape {u : List Char} {k : String}
    (h : matchAccessKey u = some k) :
    k ≠ "" ∧ k.data.all isHexCI = true := by
  unfold matchAccessKey at h
  cases he : execRegex accessKeyRe u with
  | none => rw [he] at h; exact absurd h (by simp)
  | some caps =>
    rw [he] at h
    have hok := capsOK_of_execRegex he
    simp only [accessKeyRe, capsOK] at hok
    obtain ⟨c1, cs1, he1, hne1, hhex1, hnil⟩ := hok
    subst he1
    subst hnil
    simp only [Option.some.injEq] at h
    subst h
    exact ⟨mk_ne_empty hne1, hhex1⟩

theorem matchHash_shape {u : List Char} {k : String}
    (h : matchHash u = some k) :
    k ≠ "" ∧ k.data.all isHexCI = true := by
  unfold matchHash at h
  cases he : execRegex hashRe u with
  | none => rw [he] at h; exact absurd h (by simp)
  | some caps =>
    rw [he] at h
    have hok := capsOK_of_execRegex he
    simp only [hashRe, capsOK] at hok
    obtain ⟨c1, cs1, he1, hne1, hhex1, hnil⟩ := hok
    subst he1
    subst hnil
    simp only [Option.some.injEq] at h
    subst h
    exact ⟨mk_ne_empty hne1, hhex1⟩

/-! ### Resolver characterization lemmas -/

/-- The access key the resolver settles on: the embedded-key match if it
exists (it overwrites the hash of step 1), otherwise the hash-parameter
match (which is also the step-1 hash when the ext pattern matched, lines
53 and 85 being the same regex). -/
theorem resolve_key_eq (url : String) :
    (resolveVkUrl url).2.2 =
      match matchAccessKey url.data with
      | some k => some k
      | none => matchHash url.data := by
  unfold resolveVkUrl
  cases hak : matchAccessKey url.data with
  | some k =>
    obtain ⟨hkne, _⟩ := matchAccessKey_shape hak
    simp [hak, strFalsy, hkne]
  | none =>
    cases hext : matchExt url.data with
    | none => simp [hak, hext, strFalsy]
    | some p =>
      obtain ⟨o, v⟩ := p
      cases hh : matchHash url.data with
      | none => simp [hak, hext, hh, strFalsy]
      | some h0 =>
        obtain ⟨hne, _⟩ := matchHash_shape hh
        simp [hak, hext, hh, strFalsy, hne]

/-- When the ext pattern matches, its captures become the identifiers. -/
theorem resolve_of_ext {url : String} {o v : String}
    (hext : matchExt url.data = some (o, v)) :
    (resolveVkUrl url).1 = some o ∧ (resolveVkUrl url).2.1 = some v := by
  obtain ⟨ho, hv⟩ := matchExt_shape hext
  unfold resolveVkUrl
  simp [hext, strFalsy, ho, hv]

/-- When the ext pattern does not match and the standard pattern does. -/
theorem resolve_of_standard {url : String} {o v : String}
    (hext : matchExt url.data = none)
    (hstd : matchStandard url.data = some (o, v)) :
    (resolveVkUrl url).1 = some o ∧ (resolveVkUrl url).2.1 = some v := by
  obtain ⟨ho, hv⟩ := matchStandard_shape hstd
  unfold resolveVkUrl
  simp [hext, hstd, strFalsy, ho, hv]

/-- When only the z pattern matches. -/
theorem resolve_of_z {url : String} {o v : String}
    (hext : matchExt url.data = none)
    (hstd : matchStandard url.data = none)
    (hz : matchZ url.data = some (o, v)) :
    (resolveVkUrl url).1 = some o ∧ (resolveVkUrl url).2.1 = some v := by
  obtain ⟨ho, hv⟩ := matchZ_shape hz
  unfold resolveVkUrl
  simp [hext, hstd, hz, strFalsy, ho, hv]

/-- When none of the three identifier patterns matches, both identifiers
stay null. -/
theorem resolve_of_no_match {url : String}
    (hext : matchExt url.data = none)
    (hstd : matchStandard url.data = none)
    (hz : matchZ url.data = none) :
    (resolveVkUrl url).1 = none ∧ (resolveVkUrl url).2.1 = none := by
  unfold resolveVkUrl
  simp [hext, hstd, hz, strFalsy]

/-- Any owner id the resolver produces is non-empty. -/
theorem resolve_owner_ne {url : String} {o : String}
    (h : (resolveVkUrl url).1 = some o) : o ≠ "" := by
  cases hext : matchExt url.data with
  | some p =>
    obtain ⟨o', v'⟩ := p
    have hids := resolve_of_ext hext
    rw [hids.1] at h
    injection h with h
    subst h
    exact (matchExt_shape hext).1
  | none =>
    cases hstd : matchStandard url.data with
    | some p =>
      obtain ⟨o', v'⟩ := p
      have hids := resolve_of_standard hext hstd
      rw [hids.1] at h
      injection h with h
      subst h
      exact (matchStandard_shape hstd).1
    | none =>
      cases hz : matchZ url.data with
      | some p =>
        obtain ⟨o', v'⟩ := p
        have hids := resolve_of_z hext hstd hz
        rw [hids.1] at h
        injection h with h
        subst h
        exact (matchZ_shape hz).1
      | none =>
        have hids := resolve_of_no_match hext hstd hz
        rw [hids.1] at h
        exact absurd h (by simp)

/-- Any video id the resolver produces is non-empty. -/
theorem resolve_video_ne {url : String} {v : String}
    (h : (resolveVkUrl url).2.1 = some v) : v ≠ "" := by
  cases hext : matchExt url.data with
  | some p =>
    obtain ⟨o', v'⟩ := p
    have hids := resolve_of_ext hext
    rw [hids.2] at h
    injection h with h
    subst h
    exact (matchExt_shape hext).2
  | none =>
    cases hstd : matchStandard url.data with
    | some p =>
      obtain ⟨o', v'⟩ := p
      have hids := resolve_of_standard hext hstd
      rw [hids.2] at h
      injection h with h
      subst h
      exact (matchStandard_shape hstd).2
    | none =>
      cases hz : matchZ url.data with
      | some p =>
        obtain ⟨o', v'⟩ := p
        have hids := resolve_of_z hext hstd hz
        rw [hids.2] at h
        injection h with h
        subst h
        exact (matchZ_shape hz).2
      | none =>
        have hids := resolve_of_no_match hext hstd hz
        rw [hids.2] at h
        exact absurd h (by simp)

/-- Any access key the resolver produces is a non-empty run of
case-insensitive hex characters. -/
theorem resolve_key_shape {url : String} {k : String}
    (h : (resolveVkUrl url).2.2 = some k) :
    k ≠ "" ∧ k.data.all isHexCI = true := by
  rw [resolve_key_eq] at h
  cases hak : matchAccessKey url.data with
  | some k' =>
    rw [hak] at h
    injection h with h
    subst h
    exact matchAccessKey_shape hak
  | none =>
    rw [hak] at h
    exact matchHash_shape h

theorem strFalsy_none : strFalsy none = true := rfl

theorem strFalsy_some_ne {s : String} (h : s ≠ "") : strFalsy (some s) = false := by
  simp [strFalsy, h]

theorem jsOrNull_some_ne {s : String} (h : s ≠ "") : jsOrNull (some s) = some s := by
  simp [jsOrNull, strFalsy_some_ne h]

/-! ### Claim theorems -/

/-- Claim C10: a request body whose `videoUrl` is falsy — absent or the
empty string — is rejected with the 400 `MissingInput` response, and the
provider call is never reached. -/
theorem claim10_missing_input (method : String) (videoUrl : Option String)
    (envKey : Option String) (vkCall : Except String VKOutcome)
    (hm : method ≠ "OPTIONS") (hf : strFalsy videoUrl = true) :
    handleRequest method (Except.ok videoUrl) envKey vkCall =
      (jsonResp 400 Body.missingInput, false) := by
  simp [handleRequest, hm, hf]

/-- Witness for C10 at the empty-string `videoUrl`. -/
theorem claim10_witness :
    handleRequest "POST" (Except.ok (some "")) none
        (Except.ok (VKOutcome.items [])) =
      (jsonResp 400 Body.missingInput, false) :=
  claim10_missing_input "POST" (some "") none (Except.ok (VKOutcome.items []))
    (by decide) (by decide)

/-- Claim C5: when none of the three identifier patterns matches the
input URL, the request fails with the 400 `InvalidUrlFormat` response
carrying the original input verbatim, and the provider call is never
reached. -/
theorem claim5_invalid_format (method url : String) (envKey : Option String)
    (vkCall : Except String VKOutcome)
    (hm : method ≠ "OPTIONS") (hu : url ≠ "")
    (hext : matchExt url.data = none)
    (hstd : matchStandard url.data = none)
    (hz : matchZ url.data = none) :
    handleRequest method (Except.ok (some url)) envKey vkCall =
      (jsonResp 400 (Body.invalidFormat url), false) := by
  obtain ⟨h1, h2⟩ := resolve_of_no_match hext hstd hz
  cases hr : resolveVkUrl url with
  | mk a bc =>
    cases bc with
    | mk b c =>
      rw [hr] at h1 h2
      simp only [] at h1 h2
      subst h1
      subst h2
      simp [handleRequest, afterParse, hm, hu, hr, strFalsy_some_ne hu,
        strFalsy_none]

/-- Witness for C5 at the spec's unrecognized URL. -/
theorem claim5_witness :
    handleRequest "POST" (Except.ok (some "https://example.com/watch?id=1")) none
        (Except.ok (VKOutcome.items [])) =
      (jsonResp 400 (Body.invalidFormat "https://example.com/watch?id=1"), false) :=
  claim5_invalid_format "POST" "https://example.com/watch?id=1" none
    (Except.ok (VKOutcome.items []))
    (by decide) (by decide) (by decide) (by decide) (by decide)

/-- Claim C1: on a provider error outcome, the request fails with the
400 `ProviderRejected` response (provider message, code and hint) exactly
when no pre-known access key was extracted from the URL; with a pre-known
key, the handler instead succeeds with the fallback embed URL and
`source = "fallback"`. -/
theorem claim1_provider_error (method url : String) (envKey : Option String)
    (msg : Option String) (code : Option Int)
    (o v : String) (k : Option String)
    (hm : method ≠ "OPTIONS") (hu : url ≠ "")
    (hr : resolveVkUrl url = (some o, some v, k))
    (he : strFalsy envKey = false) :
    (k = none →
      handleRequest method (Except.ok (some url)) envKey
          (Except.ok (VKOutcome.apiError msg code)) =
        (jsonResp 400 (Body.providerRejected
          (if strFalsy msg then "VK API error" else msg.getD "") code vkHint),
         true)) ∧
    (∀ kk, k = some kk →
      handleRequest method (Except.ok (some url)) envKey
          (Except.ok (VKOutcome.apiError msg code)) =
        (jsonResp 200 (Body.success (fallbackEmbedUrl o v (some kk)) o v
          (some kk) none none none "fallback"), true)) := by
  have ho : (resolveVkUrl url).1 = some o := by rw [hr]
  have hv : (resolveVkUrl url).2.1 = some v := by rw [hr]
  have hone := resolve_owner_ne ho
  have hvne := resolve_video_ne hv
  constructor
  · intro hk
    subst hk
    simp [handleRequest, afterParse, providerPhase, hm, hu, hr, he,
      strFalsy_some_ne hu, strFalsy_some_ne hone, strFalsy_some_ne hvne,
      strFalsy_none]
  · intro kk hk
    subst hk
    have hkk : (resolveVkUrl url).2.2 = some kk := by rw [hr]
    have hkne := (resolve_key_shape hkk).1
    simp [handleRequest, afterParse, providerPhase, hm, hu, hr, he,
      strFalsy_some_ne hu, strFalsy_some_ne hone, strFalsy_some_ne hvne,
      strFalsy_some_ne hkne, strFalsy_none]

/-- Witness for C1: provider error with a pre-known key gives the
fallback success, not a 400. -/
theorem claim1_witness :
    handleRequest "POST" (Except.ok (some "vk.com/video-1_2_ab")) (some "t")
        (Except.ok (VKOutcome.apiError (some "boom") (some 15))) =
      (jsonResp 200 (Body.success (fallbackEmbedUrl "-1" "2" (some "ab"))
        "-1" "2" (some "ab") none none none "fallback"), true) :=
  (claim1_provider_error "POST" "vk.com/video-1_2_ab" (some "t")
    (some "boom") (some 15) "-1" "2" (some "ab")
    (by decide) (by decide) (by decide) (by decide)).2 "ab" rfl

/-- Claim C2: on a success outcome with zero records, the request fails
with the 404 `VideoNotFound` response exactly when no pre-known access
key was extracted from the URL; with a pre-known key, the handler instead
succeeds with the fallback embed URL and `source = "fallback"`. -/
theorem claim2_zero_records (method url : String) (envKey : Option String)
    (o v : String) (k : Option String)
    (hm : method ≠ "OPTIONS") (hu : url ≠ "")
    (hr : resolveVkUrl url = (some o, some v, k))
    (he : strFalsy envKey = false) :
    (k = none →
      handleRequest method (Except.ok (some url)) envKey
          (Except.ok (VKOutcome.items [])) =
        (jsonResp 404 Body.videoNotFound, true)) ∧
    (∀ kk, k = some kk →
      handleRequest method (Except.ok (some url)) envKey
          (Except.ok (VKOutcome.items [])) =
        (jsonResp 200 (Body.success (fallbackEmbedUrl o v (some kk)) o v
          (some kk) none none none "fallback"), true)) := by
  have ho : (resolveVkUrl url).1 = some o := by rw [hr]
  have hv : (resolveVkUrl url).2.1 = some v := by rw [hr]
  have hone := resolve_owner_ne ho
  have hvne := resolve_video_ne hv
  constructor
  · intro hk
    subst hk
    simp [handleRequest, afterParse, providerPhase, hm, hu, hr, he,
      strFalsy_some_ne hu, strFalsy_some_ne hone, strFalsy_some_ne hvne,
      strFalsy_none]
  · intro kk hk
    subst hk
    have hkk : (resolveVkUrl url).2.2 = some kk := by rw [hr]
    have hkne := (resolve_key_shape hkk).1
    simp [handleRequest, afterParse, providerPhase, hm, hu, hr, he,
      strFalsy_some_ne hu, strFalsy_some_ne hone, strFalsy_some_ne hvne,
      strFalsy_some_ne hkne, strFalsy_none]

/-- Witness for C2: zero records with no pre-known key gives the 404. -/
theorem claim2_witness :
    handleRequest "POST" (Except.ok (some "vk.com/video-1_2")) (some "t")
        (Except.ok (VKOutcome.items [])) =
      (jsonResp 404 Body.videoNotFound, true) :=
  (claim2_zero_records "POST" "vk.com/video-1_2" (some "t")
    "-1" "2" none
    (by decide) (by decide) (by decide) (by decide)).1 rfl

/-- Claim C3 is false as stated: the ext regex requires `oid=` to occur
before `id=`, so with the two parameters in the reverse order nothing is
extracted and resolution fails (the claim predicts
`ownerId = "-1"`, `videoId = "2"` here). -/
theorem claim3_counterexample :
    resolveVkUrl "video_ext.php?id=2&oid=-1" = (none, none, none) := by
  decide

/-- Claim C3 (amended): for every URL on which the extension-embed regex
matches — which requires the `oid=` parameter to occur before the `id=`
parameter, each anywhere in the string, case-insensitively — the resolver
adopts its two captures as owner id and video id, and (unless the
embedded-access-key pattern overrides it) the `hash=<hex>` query
parameter, when present, is adopted as the access key. -/
theorem claim3_ext_pattern (url : String) (o v : String)
    (hext : matchExt url.data = some (o, v)) :
    (resolveVkUrl url).1 = some o ∧ (resolveVkUrl url).2.1 = some v ∧
    (matchAccessKey url.data = none →
      (resolveVkUrl url).2.2 = matchHash url.data) := by
  refine ⟨(resolve_of_ext hext).1, (resolve_of_ext hext).2, ?_⟩
  intro hak
  rw [resolve_key_eq, hak]

/-- Witness for the amended C3 at a concrete ext URL with a hash. -/
theorem claim3_witness :
    (resolveVkUrl "vk.com/video_ext.php?oid=-1&id=2&hash=ab").1 = some "-1" ∧
    (resolveVkUrl "vk.com/video_ext.php?oid=-1&id=2&hash=ab").2.1 = some "2" ∧
    (resolveVkUrl "vk.com/video_ext.php?oid=-1&id=2&hash=ab").2.2 = some "ab" := by
  have h := claim3_ext_pattern "vk.com/video_ext.php?oid=-1&id=2&hash=ab"
    "-1" "2" (by decide)
  refine ⟨h.1, h.2.1, ?_⟩
  rw [h.2.2 (by decide)]
  decide

/-- Claim C4: an embedded-access-key match always becomes the final
access key, overriding any `hash=` parameter; and when there is no
embedded-key match the final key is exactly the `hash=<hex>` scan result
(the step-1 hash and the step-5 scan evaluate the same regex, so this
covers both "step 1 produced it" and "step 5 is only a final fallback"). -/
theorem claim4_key_priority (url : String) :
    (∀ k, matchAccessKey url.data = some k →
      (resolveVkUrl url).2.2 = some k) ∧
    (matchAccessKey url.data = none →
      (resolveVkUrl url).2.2 = matchHash url.data) := by
  constructor
  · intro k hk
    rw [resolve_key_eq, hk]
  · intro hk
    rw [resolve_key_eq, hk]

/-- Witness for C4 at the spec's override example: the embedded key wins
over the `hash=` parameter. -/
theorem claim4_witness :
    (resolveVkUrl "vk.com/video-123_456_deadbeef?hash=aaaa").2.2 =
      some "deadbeef" :=
  (claim4_key_priority "vk.com/video-123_456_deadbeef?hash=aaaa").1
    "deadbeef" (by decide)

/-- Claim C8 is false as stated: resolution can succeed with an
uppercase access key, which does not match the lowercase pattern
`[a-f0-9]+` — every key regex in the source carries the `i` flag. -/
theorem claim8_counterexample :
    resolveVkUrl "vk.com/video-1_2_AB" = (some "-1", some "2", some "AB") ∧
    "AB".data.all isHexLower = false := by
  constructor
  · decide
  · decide

/-- Claim C8 (amended): on every successful resolution the owner id and
video id are non-empty, and the access key, when present, is a non-empty
string of case-insensitive hex characters (`[a-fA-F0-9]+`). -/
theorem claim8_invariant (url : String) (o v : String) (k : Option String)
    (h : resolveVkUrl url = (some o, some v, k)) :
    o ≠ "" ∧ v ≠ "" ∧
    ∀ s, k = some s → s ≠ "" ∧ s.data.all isHexCI = true := by
  have ho : (resolveVkUrl url).1 = some o := by rw [h]
  have hv : (resolveVkUrl url).2.1 = some v := by rw [h]
  refine ⟨resolve_owner_ne ho, resolve_video_ne hv, ?_⟩
  intro s hs
  subst hs
  exact resolve_key_shape (by rw [h])

/-- Witness for the amended C8 at a URL with an embedded key. -/
theorem claim8_witness :
    ("-1" : String) ≠ "" ∧ ("2" : String) ≠ "" ∧
      ∀ s, (some "ab" : Option String) = some s →
        s ≠ "" ∧ s.data.all isHexCI = true :=
  claim8_invariant "vk.com/video-1_2_ab" "-1" "2" (some "ab") (by decide)

/-- Claim C6: when the first record carries a (truthy) player URL, the
handler adopts it: the scheme is upgraded from `http:` to `https:`,
`hd=2`/`autoplay=0` are appended only when not already present, the
response succeeds with `source = "vk_api"` — and on the spec's example
the result is exactly `https://vk.com/player.html?hd=2&autoplay=0`. -/
theorem claim6_player_url (method url : String) (envKey : Option String)
    (o v : String) (k : Option String) (video : VKVideo) (vs : List VKVideo)
    (p : String)
    (hm : method ≠ "OPTIONS") (hu : url ≠ "")
    (hr : resolveVkUrl url = (some o, some v, k))
    (he : strFalsy envKey = false)
    (hp : video.player = some p) (hpn : p ≠ "") :
    handleRequest method (Except.ok (some url)) envKey
        (Except.ok (VKOutcome.items (video :: vs))) =
      (jsonResp 200 (Body.success (normalizePlayerUrl p) o v
        (jsOrNull (effectiveKey video.access_key k))
        (jsOrNull video.title) (jsOrNullNat video.duration)
        (some p) "vk_api"), true) ∧
    normalizePlayerUrl "http://vk.com/player.html" =
      "https://vk.com/player.html?hd=2&autoplay=0" ∧
    (∀ rest : List Char,
      upgradeHttp (String.mk ('h' :: 't' :: 't' :: 'p' :: ':' :: rest)) =
        String.mk ('h' :: 't' :: 't' :: 'p' :: 's' :: ':' :: rest)) ∧
    (∀ q : String, containsSub (upgradeHttp q).data ("hd=".data) = true →
      containsSub (upgradeHttp q).data ("autoplay=".data) = true →
      normalizePlayerUrl q = upgradeHttp q) := by
  have ho : (resolveVkUrl url).1 = some o := by rw [hr]
  have hv : (resolveVkUrl url).2.1 = some v := by rw [hr]
  have hone := resolve_owner_ne ho
  have hvne := resolve_video_ne hv
  refine ⟨?_, by decide, ?_, ?_⟩
  · simp [handleRequest, afterParse, providerPhase, successPhase, hm, hr, he,
      strFalsy_some_ne hu, strFalsy_some_ne hone, strFalsy_some_ne hvne,
      hp, strFalsy_some_ne hpn, jsOrNull_some_ne hpn]
  · intro rest
    rfl
  · intro q h1 h2
    simp [normalizePlayerUrl, h1, h2]

/-- Witness for C6 at the spec's player-URL example. -/
theorem claim6_witness :
    handleRequest "POST" (Except.ok (some "vk.com/video-1_2")) (some "t")
        (Except.ok (VKOutcome.items
          [VKVideo.mk none (some "http://vk.com/player.html") none none])) =
      (jsonResp 200 (Body.success "https://vk.com/player.html?hd=2&autoplay=0"
        "-1" "2" none none none (some "http://vk.com/player.html") "vk_api"),
       true) := by
  have h := claim6_player_url "POST" "vk.com/video-1_2" (some "t")
    "-1" "2" none (VKVideo.mk none (some "http://vk.com/player.html") none none)
    [] "http://vk.com/player.html"
    (by decide) (by decide) (by decide) (by decide) rfl (by decide)
  rw [h.1, h.2.1]
  decide

/-- Claim C7: on a success outcome with at least one record the handler
uses the first record; the effective access key is the record's key when
truthy, else the pre-known key; without a player URL the fallback-style
URL is built from the effective key when one exists and the keyless
public URL otherwise; in each sub-branch `source = "vk_api"`. -/
theorem claim7_success_branch (method url : String) (envKey : Option String)
    (o v : String) (k : Option String) (video : VKVideo) (vs : List VKVideo)
    (hm : method ≠ "OPTIONS") (hu : url ≠ "")
    (hr : resolveVkUrl url = (some o, some v, k))
    (he : strFalsy envKey = false) :
    (strFalsy video.player = true →
      strFalsy (effectiveKey video.access_key k) = false →
      handleRequest method (Except.ok (some url)) envKey
          (Except.ok (VKOutcome.items (video :: vs))) =
        (jsonResp 200 (Body.success
          (fallbackEmbedUrl o v (effectiveKey video.access_key k)) o v
          (effectiveKey video.access_key k)
          (jsOrNull video.title) (jsOrNullNat video.duration)
          none "vk_api"), true)) ∧
    (strFalsy video.player = true →
      strFalsy (effectiveKey video.access_key k) = true →
      handleRequest method (Except.ok (some url)) envKey
          (Except.ok (VKOutcome.items (video :: vs))) =
        (jsonResp 200 (Body.success (fallbackEmbedUrl o v none) o v
          none (jsOrNull video.title) (jsOrNullNat video.duration)
          none "vk_api"), true)) ∧
    (∀ p, video.player = some p → p ≠ "" →
      handleRequest method (Except.ok (some url)) envKey
          (Except.ok (VKOutcome.items (video :: vs))) =
        (jsonResp 200 (Body.success (normalizePlayerUrl p) o v
          (jsOrNull (effectiveKey video.access_key k))
          (jsOrNull video.title) (jsOrNullNat video.duration)
          (some p) "vk_api"), true)) := by
  have ho : (resolveVkUrl url).1 = some o := by rw [hr]
  have hv : (resolveVkUrl url).2.1 = some v := by rw [hr]
  have hone := resolve_owner_ne ho
  have hvne := resolve_video_ne hv
  refine ⟨?_, ?_, ?_⟩
  · intro hpl heff
    simp [handleRequest, afterParse, providerPhase, successPhase, jsOrNull,
      hm, hr, he, strFalsy_some_ne hu, strFalsy_some_ne hone,
      strFalsy_some_ne hvne, hpl, heff]
  · intro hpl heff
    simp [handleRequest, afterParse, providerPhase, successPhase, jsOrNull,
      hm, hr, he, strFalsy_some_ne hu, strFalsy_some_ne hone,
      strFalsy_some_ne hvne, hpl, heff]
  · intro p hp hpn
    simp [handleRequest, afterParse, providerPhase, successPhase,
      hm, hr, he, strFalsy_some_ne hu, strFalsy_some_ne hone,
      strFalsy_some_ne hvne, hp, strFalsy_some_ne hpn, jsOrNull_some_ne hpn]

/-- Witness for C7: a record with its own key and no player URL yields
the fallback-style URL built from the record's key, `source = "vk_api"`. -/
theorem claim7_witness :
    handleRequest "POST" (Except.ok (some "vk.com/video-1_2")) (some "t")
        (Except.ok (VKOutcome.items
          [VKVideo.mk (some "ff") none (some "T") (some 7)])) =
      (jsonResp 200 (Body.success (fallbackEmbedUrl "-1" "2" (some "ff"))
        "-1" "2" (some "ff") (some "T") (some 7) none "vk_api"), true) := by
  have h := (claim7_success_branch "POST" "vk.com/video-1_2" (some "t")
    "-1" "2" none (VKVideo.mk (some "ff") none (some "T") (some 7)) []
    (by decide) (by decide) (by decide) (by decide)).1 rfl (by decide)
  rw [h]
  decide

/-- Every `providerPhase` result is a `jsonResp`. -/
theorem providerPhase_jsonResp (o v : String) (k : Option String)
    (vkCall : Except String VKOutcome) :
    ∃ st b, providerPhase o v k vkCall = jsonResp st b := by
  cases vkCall with
  | error e => exact ⟨500, Body.internalError e, rfl⟩
  | ok oc =>
    cases oc with
    | apiError msg code =>
      by_cases h : strFalsy k = true
      · exact ⟨400, Body.providerRejected
          (if strFalsy msg then "VK API error" else msg.getD "") code vkHint,
          by simp [providerPhase, h]⟩
      · exact ⟨200, Body.success (fallbackEmbedUrl o v k) o v k
          none none none "fallback", by simp [providerPhase, h]⟩
    | items vids =>
      cases vids with
      | nil =>
        by_cases h : strFalsy k = true
        · exact ⟨404, Body.videoNotFound, by simp [providerPhase, h]⟩
        · exact ⟨200, Body.success (fallbackEmbedUrl o v k) o v k
            none none none "fallback", by simp [providerPhase, h]⟩
      | cons video rest => exact ⟨200, (successPhase o v k video).body, rfl⟩

/-- Every handler response is either the preflight response or a
`jsonResp`; both carry `corsHeaders`. -/
theorem handle_resp_cases (method : String) (body : Except String (Option String))
    (envKey : Option String) (vkCall : Except String VKOutcome) :
    (handleRequest method body envKey vkCall).1 =
        Response.mk 200 corsHeaders Body.preflight ∨
    ∃ st b, (handleRequest method body envKey vkCall).1 = jsonResp st b := by
  by_cases hm : method = "OPTIONS"
  · left
    simp [handleRequest, hm]
  · right
    cases body with
    | error e =>
      exact ⟨500, Body.internalError e, by simp [handleRequest, hm]⟩
    | ok vu =>
      by_cases hvu : strFalsy vu = true
      · exact ⟨400, Body.missingInput, by simp [handleRequest, hm, hvu]⟩
      · cases hres : resolveVkUrl (vu.getD "") with
        | mk a bc =>
          cases bc with
          | mk b c =>
            by_cases hab : (strFalsy a || strFalsy b) = true
            · exact ⟨400, Body.invalidFormat (vu.getD ""), by
                simp [handleRequest, afterParse, hm, hvu, hres, hab]⟩
            · by_cases henv : strFalsy envKey = true
              · exact ⟨500, Body.notConfigured, by
                  simp [handleRequest, afterParse, hm, hvu, hres, hab, henv]⟩
              · obtain ⟨st, b2, hb⟩ :=
                  providerPhase_jsonResp (a.getD "") (b.getD "") c vkCall
                exact ⟨st, b2, by
                  simp [handleRequest, afterParse, hm, hvu, hres, hab, henv, hb]⟩

/-- Claim C9: every response of the handler — preflight, every error and
both success variants — carries the permissive CORS headers. -/
theorem claim9_cors (method : String) (body : Except String (Option String))
    (envKey : Option String) (vkCall : Except String VKOutcome) :
    ("Access-Control-Allow-Origin", "*")
        ∈ (handleRequest method body envKey vkCall).1.headers ∧
    ("Access-Control-Allow-Headers",
        "authorization, x-client-info, apikey, content-type")
        ∈ (handleRequest method body envKey vkCall).1.headers := by
  rcases handle_resp_cases method body envKey vkCall with h | ⟨st, b, h⟩
  · rw [h]
    exact ⟨by simp [corsHeaders], by simp [corsHeaders]⟩
  · rw [h]
    exact ⟨by simp [jsonResp, corsHeaders], by simp [jsonResp, corsHeaders]⟩

end VkApi
